import Mathlib

/-!
Shallow embedding of the Instagram AI chatbot server
(`src/index.js` and its near-duplicate variant `src/unnamed/part_000`).

Text is modelled as `List Char`; timestamps as `Nat`; identifiers generated by
`crypto.randomUUID()` are modelled as `Nat` parameters supplied by the caller
(their values are never inspected by the program).  JavaScript exceptions are
modelled with `Except JsError`.  The HMAC-SHA256 hex digest computed by
`crypto.createHmac` is left abstract: the embedded verifier takes the digest
(`expectedHex`) as a parameter, since the program only concatenates and
compares it.  Configuration values (verify token, booking URL, GPT prompt) are
likewise passed as parameters, mirroring the mutable `configuration` object.
-/

namespace AgentChat

/-- Strings of the JavaScript program, as lists of characters. -/
abbrev Str := List Char

/-- JavaScript runtime errors that the embedded code can raise. -/
inductive JsError where
  | typeError
  | rangeError
  deriving DecidableEq, Repr

/-- The `sender` field of a stored message: `"user"` or `"bot"`. -/
inductive Sender where
  | user
  | bot
  deriving DecidableEq, Repr

/-- A stored message, from the object literal pushed in
`addMessageToConversation` (`src/index.js` lines 148-153).
`id` stands for the `crypto.randomUUID()` value. -/
structure Message where
  id : Nat
  text : Str
  sender : Sender
  timestamp : Nat
  deriving DecidableEq, Repr

/-- A conversation, from the object literal created in
`addMessageToConversation` (`src/index.js` lines 136-144). -/
structure Conversation where
  id : Nat
  userId : Str
  username : Str
  messages : List Message
  status : Str
  createdAt : Nat
  lastActivity : Nat
  deriving DecidableEq, Repr

/-- `userId.slice(-6)`: the last six characters of a string (the whole string
when it is shorter than six characters, as in JavaScript). -/
def jsSliceLast6 (s : Str) : Str := s.drop (s.length - 6)

/-- The derived default username `` `user_${userId.slice(-6)}` ``. -/
def defaultUsername (userId : Str) : Str :=
  "user_".toList ++ jsSliceLast6 userId

/-- `username || defaultUsername`: JavaScript `||` falls through on `null`
(modelled `none`) and on the empty string, both falsy. -/
def jsOrUsername (username : Option Str) (userId : Str) : Str :=
  match username with
  | none => defaultUsername userId
  | some u => if u = [] then defaultUsername userId else u

/-- Replace the first element of the list satisfying `p` by `f` of it,
leaving everything else unchanged.  This models the in-place mutation of the
object returned by `conversations.find(...)`: only that first matching
array element is updated. -/
def updateFirst (p : Conversation → Bool) (f : Conversation → Conversation) :
    List Conversation → List Conversation
  | [] => []
  | c :: cs => if p c then f c :: cs else c :: updateFirst p f cs

/-- `addMessageToConversation(userId, username, message, sender)`
(`src/index.js` lines 132-157).  `convId`/`msgId` stand for the two
`crypto.randomUUID()` calls and `now` for the `new Date()` calls of this
invocation (all `new Date()` calls of one invocation are modelled as the same
instant).  Returns the conversation returned by the function together with the
updated `conversations` array: a newly created conversation is pushed at the
end; an existing one is mutated in place, so the array entry and the returned
object coincide. -/
def addMessageToConversation (store : List Conversation) (convId msgId : Nat)
    (userId : Str) (username : Option Str) (message : Str) (sender : Sender)
    (now : Nat) : Conversation × List Conversation :=
  match store.find? (fun c => c.userId == userId) with
  | none =>
    let conv : Conversation :=
      { id := convId
        userId := userId
        username := jsOrUsername username userId
        messages := [⟨msgId, message, sender, now⟩]
        status := "active".toList
        createdAt := now
        lastActivity := now }
    (conv, store ++ [conv])
  | some c =>
    let conv : Conversation :=
      { c with
        messages := c.messages ++ [⟨msgId, message, sender, now⟩]
        lastActivity := now }
    (conv, updateFirst (fun d => d.userId == userId) (fun _ => conv) store)

/-- The message list stored for `userId` (empty when no conversation exists
yet): the state of `conversation.messages` before an append. -/
def priorMessages (store : List Conversation) (userId : Str) : List Message :=
  match store.find? (fun c => c.userId == userId) with
  | some c => c.messages
  | none => []

/-- The literal placeholder token `"\x7bBOOKING_URL\x7d"`. -/
def bookingPlaceholder : Str := "{BOOKING_URL}".toList

/-- Find the first occurrence of `pat` in a list: returns `some (a, b)` with
the scanned text split as `a ++ pat ++ b` at the earliest match, `none` when
there is no match.  This is the search JavaScript performs for
`String.prototype.replace` with a string pattern. -/
def findSplit (pat : Str) : Str → Option (Str × Str)
  | [] => if List.isPrefixOf pat [] then some ([], []) else none
  | c :: rest =>
    if List.isPrefixOf pat (c :: rest) then
      some ([], List.drop pat.length (c :: rest))
    else
      (findSplit pat rest).map (fun q => (c :: q.1, q.2))

/-- `s.replace(pat, repl)` with a string pattern: JavaScript replaces only the
first occurrence; when there is none the string is returned unchanged.
(The replacement here is inserted verbatim; the program substitutes a booking
URL, which contains no `$` replacement pattern.) -/
def jsReplaceFirst (s pat repl : Str) : Str :=
  match findSplit pat s with
  | some (a, b) => a ++ repl ++ b
  | none => s

/-- `s.includes(pat)`. -/
def jsIncludes (pat s : Str) : Bool := (findSplit pat s).isSome

/-- The substitution step of `src/index.js` lines 211-214:
`llmResponse.replace("\x7bBOOKING_URL\x7d", configuration.booking.calendlyUrl)`,
applied unconditionally. -/
def finalResponseIndex (llmResponse bookingUrl : Str) : Str :=
  jsReplaceFirst llmResponse bookingPlaceholder bookingUrl

/-- The substitution step of `src/unnamed/part_000` lines 216-221: the same
`replace`, guarded by `llmResponse.includes("\x7bBOOKING_URL\x7d")`. -/
def finalResponsePart0 (llmResponse bookingUrl : Str) : Str :=
  if jsIncludes bookingPlaceholder llmResponse then
    jsReplaceFirst llmResponse bookingPlaceholder bookingUrl
  else llmResponse

/-- Number of positions at which `pat` occurs in the list. -/
def occCount (pat : Str) : Str → Nat
  | [] => 0
  | c :: rest =>
    (if List.isPrefixOf pat (c :: rest) then 1 else 0) + occCount pat rest

/-- Roles of the chat-completion request body. -/
inductive Role where
  | system
  | user
  | assistant
  deriving DecidableEq, Repr

/-- One element of the `messages` array sent to the chat-completion endpoint. -/
structure ChatMessage where
  role : Role
  content : Str
  deriving DecidableEq, Repr

/-- The `messages` array built by `sendMessageToOpenAI`
(`src/index.js` lines 72-79): the configured system prompt, the history with
`sender === "user"` mapped to role `user` and every other sender to
`assistant`, then the current message as a final `user` turn. -/
def buildMessages (prompt : Str) (message : Str)
    (conversationHistory : List Message) : List ChatMessage :=
  ⟨Role.system, prompt⟩ ::
    (conversationHistory.map fun m =>
      ⟨if m.sender == Sender.user then Role.user else Role.assistant, m.text⟩)
    ++ [⟨Role.user, message⟩]

/-- JavaScript truthiness of a possibly-absent string: `undefined` and the
empty string are falsy. -/
def truthyStr : Option Str → Bool
  | none => false
  | some s => !s.isEmpty

/-- The webhook verification handler `app.get("/webhook")`
(`src/index.js` lines 162-178).  Input: the configured verify token and the
three query parameters (absent parameters are `none`).  Output: HTTP status
and, for the 200 case, the challenge echoed as the body (`res.sendStatus`
bodies are modelled as `none`). -/
def webhookGet (verifyToken : Str) (mode token challenge : Option Str) :
    Nat × Option Str :=
  if truthyStr mode && truthyStr token then
    if mode == some "subscribe".toList && token == some verifyToken then
      (200, challenge)
    else
      (403, none)
  else
    (400, none)

/-- The tag prepended to the hex digest: `` `sha256=${expectedSignature}` ``. -/
def sha256Tag : Str := "sha256=".toList

/-- `verifyWebhookSignature(payload, signature)` (`src/index.js` lines 60-69).
`expectedHex` is the hex HMAC-SHA256 digest of the payload under the shared
secret (the output of the `crypto.createHmac(...).digest("hex")` pipeline,
abstracted here).  Faithful to the JavaScript:
`Buffer.from(signature)` raises a `TypeError` when the header is absent
(`undefined`), and `crypto.timingSafeEqual` raises a `RangeError` when the two
buffers have different lengths; only equal-length inputs are compared. -/
def verifyWebhookSignature (expectedHex : Str) (signature : Option Str) :
    Except JsError Bool :=
  match signature with
  | none => .error .typeError
  | some sig =>
    let expected := sha256Tag ++ expectedHex
    if sig.length = expected.length then .ok (sig == expected)
    else .error .rangeError

/-- The `sender` field of a webhook event; its `id` may be absent. -/
structure SenderField where
  id : Option Str
  deriving DecidableEq, Repr

/-- The `message` field of a webhook event; its `text` may be absent. -/
structure MessageField where
  text : Option Str
  deriving DecidableEq, Repr

/-- One element of an entry's `messaging` array. -/
structure WebhookEvent where
  sender : Option SenderField
  message : Option MessageField
  deriving DecidableEq, Repr

/-- One element of the payload's `entry` array; `messaging` may be absent. -/
structure Entry where
  messaging : Option (List WebhookEvent)
  deriving DecidableEq, Repr

/-- The webhook POST body; `entry` may be absent. -/
structure Payload where
  object : Str
  entry : Option (List Entry)
  deriving DecidableEq, Repr

/-- The externally observable calls made while processing: the arguments of
each `sendMessageToLLM` call and of each `sendInstagramMessage` call. -/
structure Effects where
  llmCalls : List (Str × List Message)
  deliveries : List (Str × Str)
  deriving DecidableEq, Repr

/-- No external calls. -/
def noEffects : Effects := ⟨[], []⟩

/-- Processing of one webhook event (the body of the `if (webhookEvent?.message)`
block, `src/index.js` lines 189-230).  `llm` abstracts `sendMessageToLLM`
returning a reply; delivery is modelled as succeeding, after which the bot
reply is recorded.  Faithful to the JavaScript control flow:
* no `message` field: the guard fails, nothing happens;
* `message` present but `sender` absent: `webhookEvent.sender.id` raises a
  `TypeError` before anything else happens;
* `message.text` absent: `if (messageText)` fails, nothing happens;
* `sender.id` absent with text present: `addMessageToConversation` evaluates
  `` `user_${userId.slice(-6)}` `` on `undefined` and raises a `TypeError`
  before the conversation is pushed.
The timestamps of the user and bot messages are both modelled as `now`, and
`n`, `n+1`, `n+2`, `n+3` stand for the `crypto.randomUUID()` values. -/
def processEvent (llm : Str → List Message → Str) (bookingUrl : Str)
    (ev : WebhookEvent) (store : List Conversation) (fx : Effects)
    (n now : Nat) : Except JsError (List Conversation × Effects) :=
  match ev.message with
  | none => .ok (store, fx)
  | some msg =>
    match ev.sender with
    | none => .error .typeError
    | some s =>
      match msg.text with
      | none => .ok (store, fx)
      | some text =>
        match s.id with
        | none => .error .typeError
        | some senderId =>
          let r := addMessageToConversation store n (n + 1) senderId none
            text Sender.user now
          let history := r.1.messages.dropLast
          let reply := llm text history
          let final := finalResponseIndex reply bookingUrl
          let r2 := addMessageToConversation r.2 (n + 2) (n + 3) senderId none
            final Sender.bot now
          .ok (r2.2,
            { llmCalls := fx.llmCalls ++ [(text, history)]
              deliveries := fx.deliveries ++ [(senderId, final)] })

/-- Processing of one entry: only `entry.messaging?.[0]` is examined
(`src/index.js` line 187). -/
def processEntry (llm : Str → List Message → Str) (bookingUrl : Str)
    (entry : Entry) (store : List Conversation) (fx : Effects)
    (n now : Nat) : Except JsError (List Conversation × Effects) :=
  match entry.messaging.bind List.head? with
  | none => .ok (store, fx)
  | some ev => processEvent llm bookingUrl ev store fx n now

/-- The sequential `for (const entry of body.entry || [])` loop of
`src/index.js`: entries are processed in order; the first raised error aborts
the loop (it propagates to the handler's `catch`), keeping the mutations made
so far. -/
def runEntries (llm : Str → List Message → Str) (bookingUrl : Str) :
    List Entry → List Conversation → Effects → Nat → Nat →
    List Conversation × Effects × Option JsError
  | [], store, fx, _, _ => (store, fx, none)
  | e :: rest, store, fx, n, now =>
    match processEntry llm bookingUrl e store fx n now with
    | .ok (store1, fx1) => runEntries llm bookingUrl rest store1 fx1 (n + 4) now
    | .error err => (store, fx, some err)

/-- The `body.entry?.forEach(async (entry) => ...)` loop of
`src/unnamed/part_000`: each entry's callback is started independently, so an
error raised in one callback becomes an unhandled rejection and does not stop
the other entries (nor reach the handler's `catch`). -/
def runEntriesIsolated (llm : Str → List Message → Str) (bookingUrl : Str) :
    List Entry → List Conversation → Effects → Nat → Nat →
    List Conversation × Effects
  | [], store, fx, _, _ => (store, fx)
  | e :: rest, store, fx, n, now =>
    match processEntry llm bookingUrl e store fx n now with
    | .ok (store1, fx1) =>
      runEntriesIsolated llm bookingUrl rest store1 fx1 (n + 4) now
    | .error _ => runEntriesIsolated llm bookingUrl rest store fx (n + 4) now

/-- The webhook POST handler of `src/index.js` (lines 181-240).  It performs
NO signature verification: the request carries no signature input here because
the handler never reads one.  Returns (status, body), the final
`conversations` array, and the external calls made. -/
def webhookPost (llm : Str → List Message → Str) (bookingUrl : Str)
    (body : Payload) (store : List Conversation) (n now : Nat) :
    (Nat × Str) × List Conversation × Effects :=
  if body.object == "instagram".toList then
    match runEntries llm bookingUrl (body.entry.getD []) store noEffects n now with
    | (store1, fx, none) => ((200, "EVENT_RECEIVED".toList), store1, fx)
    | (store1, fx, some _) =>
      ((500, "Internal server error".toList), store1, fx)
  else
    ((200, "EVENT_RECEIVED".toList), store, noEffects)

/-- The webhook POST handler of `src/unnamed/part_000` (lines 184-244), the
variant that enforces the signature.  `expectedHex` abstracts the HMAC-SHA256
hex digest of `JSON.stringify(req.body)` under the shared secret, and
`signature` is the `x-hub-signature-256` header.  A `TypeError`/`RangeError`
raised inside `verifyWebhookSignature` is caught by the handler's `try/catch`
and answered with 500; a `false` result is answered with 403; in both cases no
processing has happened.  On success the entries are processed with per-entry
isolation (async `forEach`). -/
def webhookPostEnforcing (expectedHex : Str) (signature : Option Str)
    (llm : Str → List Message → Str) (bookingUrl : Str) (body : Payload)
    (store : List Conversation) (n now : Nat) :
    (Nat × Str) × List Conversation × Effects :=
  match verifyWebhookSignature expectedHex signature with
  | .error _ => ((500, "Internal server error".toList), store, noEffects)
  | .ok false => ((403, "Invalid signature".toList), store, noEffects)
  | .ok true =>
    if body.object == "instagram".toList then
      let r := runEntriesIsolated llm bookingUrl (body.entry.getD []) store
        noEffects n now
      ((200, "EVENT_RECEIVED".toList), r.1, r.2)
    else
      ((200, "EVENT_RECEIVED".toList), store, noEffects)

/-- The comparator `(a, b) => b.lastActivity - a.lastActivity` of the
`/api/conversations` handler: `a` sorts no later than `b` when its
`lastActivity` is at least `b`'s (descending order). -/
def byActivityDesc (a b : Conversation) : Bool :=
  b.lastActivity ≤ a.lastActivity

/-- `listConversations`: the `/api/conversations` handler
(`src/index.js` lines 255-262) sorts the array by `lastActivity` descending
with `conversations.sort((a, b) => b.lastActivity - a.lastActivity)`;
`Array.prototype.sort` is a stable sort, modelled by `mergeSort` with the
comparator `byActivityDesc`. -/
def listConversations (store : List Conversation) : List Conversation :=
  store.mergeSort byActivityDesc

/-! Concrete inputs used by the closed theorems and witnesses. -/

/-- An example Instagram-scoped user id. -/
def exampleUserId : Str := "1000000001".toList

/-- A constant stand-in for `sendMessageToLLM`. -/
def llmConst : Str → List Message → Str := fun _ _ => "Hello!".toList

/-- An example configured booking link. -/
def exampleBookingUrl : Str := "https://cal.example/me".toList

/-- A well-formed one-message webhook payload. -/
def payloadOneMessage : Payload :=
  { object := "instagram".toList
    entry := some [⟨some [⟨some ⟨some exampleUserId⟩, some ⟨some "Hi".toList⟩⟩]⟩] }

/-- A payload whose single event has `message.text` but no `sender` field. -/
def payloadMissingSender : Payload :=
  { object := "instagram".toList
    entry := some [⟨some [⟨none, some ⟨some "Hi".toList⟩⟩]⟩] }

/-- A payload whose single event has a `sender` but no `message.text`. -/
def payloadMissingText : Payload :=
  { object := "instagram".toList
    entry := some [⟨some [⟨some ⟨some exampleUserId⟩, some ⟨none⟩⟩]⟩] }

/-- A payload whose single event has `message.text` and a `sender` object
without an `id`. -/
def payloadMissingSenderId : Payload :=
  { object := "instagram".toList
    entry := some [⟨some [⟨some ⟨none⟩, some ⟨some "Hi".toList⟩⟩]⟩] }

/-- A stand-in 64-hex-character HMAC digest. -/
def hexDigest64 : Str := List.replicate 64 '0'

/-- A signature header of the correct 71-character length but wrong value. -/
def wrongSig71 : Str := List.replicate 71 'x'

/-- A conversation with `lastActivity = 1`. -/
def convA : Conversation :=
  { id := 0, userId := "a".toList, username := "a".toList, messages := []
    status := "active".toList, createdAt := 0, lastActivity := 1 }

/-- A conversation with `lastActivity = 2`. -/
def convB : Conversation :=
  { id := 1, userId := "b".toList, username := "b".toList, messages := []
    status := "active".toList, createdAt := 0, lastActivity := 2 }

/-! Helper lemmas about `findSplit`, `jsReplaceFirst` and `occCount`. -/

theorem findSplit_some_decomp (pat : Str) :
    ∀ (s a b : Str), findSplit pat s = some (a, b) → s = a ++ pat ++ b := by
  intro s
  induction s with
  | nil =>
    intro a b h
    simp only [findSplit] at h
    split at h
    · next hpre =>
      obtain ⟨rfl, rfl⟩ := Prod.mk.injEq .. ▸ Option.some.injEq .. ▸ h
      have hp : pat = [] := List.prefix_nil.mp (by
        exact List.isPrefixOf_iff_prefix.mp hpre)
      simp [hp]
    · exact absurd h (by simp)
  | cons c rest ih =>
    intro a b h
    simp only [findSplit] at h
    split at h
    · next hpre =>
      obtain ⟨rfl, rfl⟩ := Prod.mk.injEq .. ▸ Option.some.injEq .. ▸ h
      have hp : pat ++ List.drop pat.length (c :: rest) = c :: rest :=
        List.prefix_iff_eq_append.mp (List.isPrefixOf_iff_prefix.mp hpre)
      simp [hp]
    · next hpre =>
      cases hfs : findSplit pat rest with
      | none => rw [hfs] at h; simp at h
      | some q =>
        rw [hfs] at h
        simp only [Option.map_some', Option.some.injEq] at h
        obtain ⟨rfl, rfl⟩ := Prod.mk.injEq .. ▸ h
        have := ih q.1 q.2 (by rw [hfs])
        simp [this]

theorem findSplit_none_occCount (pat : Str) :
    ∀ (s : Str), findSplit pat s = none → occCount pat s = 0 := by
  intro s
  induction s with
  | nil => intro _; rfl
  | cons c rest ih =>
    intro h
    simp only [findSplit] at h
    split at h
    · exact absurd h (by simp)
    · next hpre =>
      have hrest : findSplit pat rest = none := by
        cases hfs : findSplit pat rest with
        | none => rfl
        | some q => rw [hfs] at h; simp at h
      simp only [occCount, hpre, if_neg, ih hrest]
      simp [Bool.not_eq_true] at hpre
      simp [hpre]

theorem occCount_findSplit (pat : Str) :
    ∀ (s a b : Str), findSplit pat s = some (a, b) →
      occCount pat s = occCount pat (pat ++ b) := by
  intro s
  induction s with
  | nil =>
    intro a b h
    simp only [findSplit] at h
    split at h
    · next hpre =>
      obtain ⟨rfl, rfl⟩ := Prod.mk.injEq .. ▸ Option.some.injEq .. ▸ h
      have hp : pat = [] := List.prefix_nil.mp (List.isPrefixOf_iff_prefix.mp hpre)
      simp [hp]
    · exact absurd h (by simp)
  | cons c rest ih =>
    intro a b h
    simp only [findSplit] at h
    split at h
    · next hpre =>
      obtain ⟨rfl, rfl⟩ := Prod.mk.injEq .. ▸ Option.some.injEq .. ▸ h
      have hp : pat ++ List.drop pat.length (c :: rest) = c :: rest :=
        List.prefix_iff_eq_append.mp (List.isPrefixOf_iff_prefix.mp hpre)
      conv_lhs => rw [← hp]
    · next hpre =>
      cases hfs : findSplit pat rest with
      | none => rw [hfs] at h; simp at h
      | some q =>
        rw [hfs] at h
        simp only [Option.map_some', Option.some.injEq] at h
        obtain ⟨rfl, rfl⟩ := Prod.mk.injEq .. ▸ h
        have hq := ih q.1 q.2 (by rw [hfs])
        simp only [occCount]
        simp [Bool.not_eq_true] at hpre
        simp [hpre, hq]

theorem occCount_drop_aux {hch : Char} {rest : Str} (hmem : hch ∉ rest)
    (b : Str) : ∀ (m k : Nat), k + m = (hch :: rest).length →
      occCount (hch :: rest) ((hch :: rest).drop k ++ b) =
        (if k = 0 then 1 else 0) + occCount (hch :: rest) b := by
  intro m
  induction m with
  | zero =>
    intro k hk
    have hdrop : (hch :: rest).drop k = [] :=
      List.drop_eq_nil_of_le (by omega)
    have hk0 : k ≠ 0 := by
      intro h0
      rw [h0] at hk
      simp at hk
    rw [hdrop, if_neg hk0]
    simp
  | succ m ih =>
    intro k hk
    have hklt : k < (hch :: rest).length := by omega
    rw [List.drop_eq_getElem_cons hklt, List.cons_append]
    cases k with
    | zero =>
      have hhead : (hch :: rest)[0] = hch := rfl
      rw [hhead, if_pos rfl]
      have hguard : List.isPrefixOf (hch :: rest)
          (hch :: (List.drop 1 (hch :: rest) ++ b)) = true := by
        have : hch :: (List.drop 1 (hch :: rest) ++ b)
            = (hch :: rest) ++ b := by simp
        rw [this]
        exact List.isPrefixOf_iff_prefix.mpr ⟨b, rfl⟩
      rw [occCount, if_pos hguard]
      have := ih 1 (by omega)
      simp only [List.drop_succ_cons, List.drop_zero] at this ⊢
      rw [this, if_neg (by omega)]
      omega
    | succ j =>
      have hj : j < rest.length := by
        simp at hklt
        omega
      have hhead : (hch :: rest)[j + 1] = rest[j] := by
        simp
      rw [hhead, if_neg (by omega)]
      have hne : (hch == rest[j]) = false := by
        have : rest[j] ∈ rest := List.getElem_mem hj
        exact beq_eq_false_iff_ne.mpr (fun he => hmem (he ▸ this))
      have hguard : List.isPrefixOf (hch :: rest)
          (rest[j] :: (List.drop (j + 1 + 1) (hch :: rest) ++ b)) = false := by
        simp only [List.isPrefixOf, hne, Bool.false_and]
      rw [occCount, hguard, if_neg (by simp)]
      have := ih (j + 2) (by omega)
      rw [this, if_neg (by omega)]
      omega

theorem occCount_self_append {hch : Char} {rest : Str} (hmem : hch ∉ rest)
    (b : Str) :
    occCount (hch :: rest) ((hch :: rest) ++ b) = 1 + occCount (hch :: rest) b := by
  have := occCount_drop_aux hmem b (hch :: rest).length 0 (by omega)
  simpa using this

theorem bookingPlaceholder_head :
    bookingPlaceholder = '{' :: "BOOKING_URL\x7d".toList := by decide

theorem occCount_booking_append (b : Str) :
    occCount bookingPlaceholder (bookingPlaceholder ++ b)
      = 1 + occCount bookingPlaceholder b := by
  rw [bookingPlaceholder_head]
  exact occCount_self_append (by decide) b

/-! Claim theorems. -/

/-- C6: for every LLM reply, if it contains the literal token then the
delivered text is the reply with the token replaced by the configured booking
link; if the token is absent the reply is delivered unchanged (and no error is
raised — both embedded substitution steps are total functions).  The concrete
conjuncts check the specification's example.  Both source variants
(`src/index.js` unconditional `replace`, `src/unnamed/part_000` guarded by
`includes`) are covered. -/
theorem booking_substitution :
    (∀ (reply url : Str),
      (jsIncludes bookingPlaceholder reply = false →
        finalResponseIndex reply url = reply ∧ finalResponsePart0 reply url = reply)
      ∧ (jsIncludes bookingPlaceholder reply = true →
        ∃ a b, reply = a ++ bookingPlaceholder ++ b
          ∧ finalResponseIndex reply url = a ++ url ++ b
          ∧ finalResponsePart0 reply url = a ++ url ++ b))
    ∧ finalResponseIndex "Book here: {BOOKING_URL}".toList exampleBookingUrl
        = "Book here: https://cal.example/me".toList
    ∧ finalResponsePart0 "Book here: {BOOKING_URL}".toList exampleBookingUrl
        = "Book here: https://cal.example/me".toList := by
  refine ⟨fun reply url => ⟨?_, ?_⟩, by decide, by decide⟩
  · intro hno
    simp only [jsIncludes] at hno
    cases hfs : findSplit bookingPlaceholder reply with
    | none =>
      constructor
      · simp [finalResponseIndex, jsReplaceFirst, hfs]
      · simp [finalResponsePart0, jsIncludes, hfs]
    | some q => rw [hfs] at hno; simp at hno
  · intro hyes
    simp only [jsIncludes] at hyes
    cases hfs : findSplit bookingPlaceholder reply with
    | none => rw [hfs] at hyes; simp at hyes
    | some q =>
      obtain ⟨a, b⟩ := q
      refine ⟨a, b, findSplit_some_decomp _ _ _ _ hfs, ?_, ?_⟩
      · simp [finalResponseIndex, jsReplaceFirst, hfs]
      · simp [finalResponsePart0, jsIncludes, jsReplaceFirst, hfs]

/-- C6 witness: the theorem applied to the specification's example reply and
to a reply without the placeholder. -/
theorem booking_substitution_witness :
    (finalResponseIndex "no link today".toList exampleBookingUrl
        = "no link today".toList
      ∧ finalResponsePart0 "no link today".toList exampleBookingUrl
        = "no link today".toList)
    ∧ (∃ a b, "Book here: {BOOKING_URL}".toList = a ++ bookingPlaceholder ++ b
        ∧ finalResponseIndex "Book here: {BOOKING_URL}".toList exampleBookingUrl
            = a ++ exampleBookingUrl ++ b
        ∧ finalResponsePart0 "Book here: {BOOKING_URL}".toList exampleBookingUrl
            = a ++ exampleBookingUrl ++ b) :=
  ⟨(booking_substitution.1 "no link today".toList exampleBookingUrl).1 (by decide),
   (booking_substitution.1 "Book here: {BOOKING_URL}".toList
      exampleBookingUrl).2 (by decide)⟩

/-- C10: for every reply with at least two occurrences of the placeholder,
the substitution replaces only the first occurrence: the text splits at the
first occurrence as `a ++ token ++ b`, the delivered text is `a ++ url ++ b`
with the tail `b` copied verbatim, and all remaining occurrences (one fewer
than before, at least one) are inside that untouched tail. -/
theorem booking_first_occurrence_only :
    ∀ (s url : Str), 2 ≤ occCount bookingPlaceholder s →
      ∃ a b, s = a ++ bookingPlaceholder ++ b
        ∧ finalResponseIndex s url = a ++ url ++ b
        ∧ finalResponsePart0 s url = a ++ url ++ b
        ∧ occCount bookingPlaceholder b = occCount bookingPlaceholder s - 1
        ∧ 1 ≤ occCount bookingPlaceholder b := by
  intro s url hocc
  cases hfs : findSplit bookingPlaceholder s with
  | none =>
    have := findSplit_none_occCount _ _ hfs
    omega
  | some q =>
    obtain ⟨a, b⟩ := q
    have hcnt := occCount_findSplit _ _ _ _ hfs
    rw [occCount_booking_append] at hcnt
    refine ⟨a, b, findSplit_some_decomp _ _ _ _ hfs, ?_, ?_, by omega, by omega⟩
    · simp [finalResponseIndex, jsReplaceFirst, hfs]
    · simp [finalResponsePart0, jsIncludes, jsReplaceFirst, hfs]

/-- C10 witness: a reply with two placeholder occurrences. -/
theorem booking_first_occurrence_only_witness :
    2 ≤ occCount bookingPlaceholder "A{BOOKING_URL}B{BOOKING_URL}C".toList
    ∧ ∃ a b, "A{BOOKING_URL}B{BOOKING_URL}C".toList
          = a ++ bookingPlaceholder ++ b
        ∧ finalResponseIndex "A{BOOKING_URL}B{BOOKING_URL}C".toList "U".toList
            = a ++ "U".toList ++ b
        ∧ finalResponsePart0 "A{BOOKING_URL}B{BOOKING_URL}C".toList "U".toList
            = a ++ "U".toList ++ b
        ∧ occCount bookingPlaceholder b
            = occCount bookingPlaceholder "A{BOOKING_URL}B{BOOKING_URL}C".toList - 1
        ∧ 1 ≤ occCount bookingPlaceholder b :=
  ⟨by decide,
   booking_first_occurrence_only "A{BOOKING_URL}B{BOOKING_URL}C".toList
     "U".toList (by decide)⟩

/-- C2: the claim states that verification returns `false` and never throws on
an absent, malformed, or wrong-length header.  The source contradicts it:
`Buffer.from(signature)` raises a `TypeError` when the header is absent, and
`crypto.timingSafeEqual` raises a `RangeError` whenever the header's length
differs from the length of `"sha256=" + hex digest`.  Only an equal-length
header is actually compared.  This theorem evaluates the embedded verifier at
those inputs. -/
theorem verify_signature_throws :
    verifyWebhookSignature hexDigest64 none = .error .typeError
    ∧ verifyWebhookSignature hexDigest64 (some "abc".toList) = .error .rangeError
    ∧ verifyWebhookSignature hexDigest64 (some wrongSig71) = .ok false
    ∧ verifyWebhookSignature hexDigest64 (some (sha256Tag ++ hexDigest64))
        = .ok true :=
  ⟨rfl, rfl, rfl, rfl⟩

/-- C1: the claim states that every POST whose `x-hub-signature-256` header is
incorrect or missing is rejected with 403 and the store left unchanged, and
that correct signatures proceed.  The source contradicts it twice: in the
enforcing variant (`src/unnamed/part_000`) a missing header or a header of the
wrong length makes `verifyWebhookSignature` throw, so the handler answers 500,
not 403 (the store is still unchanged); and the `src/index.js` variant never
verifies signatures at all — it processes the payload and mutates the store
although no signature is present.  Only an incorrect header of the correct
71-character length is answered with 403.  This theorem evaluates both
embedded handlers at those inputs. -/
theorem signature_enforcement_divergence :
    (webhookPostEnforcing hexDigest64 none llmConst exampleBookingUrl
        payloadOneMessage [] 0 5).1 = (500, "Internal server error".toList)
    ∧ (webhookPostEnforcing hexDigest64 none llmConst exampleBookingUrl
        payloadOneMessage [] 0 5).2.1 = []
    ∧ (webhookPostEnforcing hexDigest64 (some "abc".toList) llmConst
        exampleBookingUrl payloadOneMessage [] 0 5).1
        = (500, "Internal server error".toList)
    ∧ (webhookPostEnforcing hexDigest64 (some "abc".toList) llmConst
        exampleBookingUrl payloadOneMessage [] 0 5).2.1 = []
    ∧ (webhookPostEnforcing hexDigest64 (some wrongSig71) llmConst
        exampleBookingUrl payloadOneMessage [] 0 5).1
        = (403, "Invalid signature".toList)
    ∧ (webhookPostEnforcing hexDigest64 (some wrongSig71) llmConst
        exampleBookingUrl payloadOneMessage [] 0 5).2.1 = []
    ∧ (webhookPostEnforcing hexDigest64 (some (sha256Tag ++ hexDigest64))
        llmConst exampleBookingUrl payloadOneMessage [] 0 5).1
        = (200, "EVENT_RECEIVED".toList)
    ∧ (webhookPostEnforcing hexDigest64 (some (sha256Tag ++ hexDigest64))
        llmConst exampleBookingUrl payloadOneMessage [] 0 5).2.1 ≠ []
    ∧ (webhookPost llmConst exampleBookingUrl payloadOneMessage [] 0 5).2.1
        ≠ [] := by
  decide

/-- C7: the claim states that an event with `sender.id` or `message.text`
absent is silently skipped.  The source only half satisfies it: a missing
`message` or `message.text` is indeed a no-op (second conjunct), but when
`message.text` is present and the `sender` field is absent the handler raises
a `TypeError` at `webhookEvent.sender.id` and answers 500 (first conjunct),
and when `sender.id` is absent it raises inside `addMessageToConversation` at
`userId.slice(-6)` and answers 500 (third conjunct).  This theorem evaluates
the embedded `src/index.js` handler at those inputs. -/
theorem missing_fields_divergence :
    webhookPost llmConst exampleBookingUrl payloadMissingSender [] 0 5
        = ((500, "Internal server error".toList), [], noEffects)
    ∧ webhookPost llmConst exampleBookingUrl payloadMissingText [] 0 5
        = ((200, "EVENT_RECEIVED".toList), [], noEffects)
    ∧ (webhookPost llmConst exampleBookingUrl payloadMissingSenderId [] 0 5).1
        = (500, "Internal server error".toList) := by
  decide

/-- C3 counterexample: the claim says that whenever both `hub.mode` and
`hub.verify_token` are present and the subscribe/token test fails, the
response is 403.  The handler tests JavaScript truthiness, not presence: with
`hub.mode` present but equal to the empty string (and a present token) it
answers 400, not 403. -/
theorem webhook_get_claim_counterexample :
    ¬ (∀ (verifyToken : Str) (mode token challenge : Option Str),
        mode ≠ none → token ≠ none →
        ¬(mode = some "subscribe".toList ∧ token = some verifyToken) →
        webhookGet verifyToken mode token challenge = (403, none)) := by
  intro h
  have h403 := h "tok".toList (some []) (some "tok".toList) none
    (by decide) (by decide) (by decide)
  have h400 : webhookGet "tok".toList (some []) (some "tok".toList) none
      = (400, none) := by decide
  rw [h400] at h403
  exact absurd h403 (by decide)

/-- C3 (amended): if both `hub.mode` and `hub.verify_token` are present and
non-empty (JavaScript-truthy), the response is 200 with body exactly the
challenge iff the mode equals `"subscribe"` and the token equals the
configured verify token, and 403 otherwise; if either parameter is absent or
empty, the response is 400. -/
theorem webhook_get_characterization :
    ∀ (verifyToken : Str) (mode token challenge : Option Str),
      (truthyStr mode = true → truthyStr token = true →
        ((webhookGet verifyToken mode token challenge = (200, challenge)
            ↔ mode = some "subscribe".toList ∧ token = some verifyToken)
          ∧ (¬(mode = some "subscribe".toList ∧ token = some verifyToken) →
              webhookGet verifyToken mode token challenge = (403, none))))
      ∧ ((truthyStr mode = false ∨ truthyStr token = false) →
          webhookGet verifyToken mode token challenge = (400, none)) := by
  intro vt mode token ch
  constructor
  · intro hm ht
    have hcond : (truthyStr mode && truthyStr token) = true := by
      rw [hm, ht]; rfl
    by_cases hb : (mode == some "subscribe".toList && token == some vt) = true
    · have heq : mode = some "subscribe".toList ∧ token = some vt := by
        rw [Bool.and_eq_true, beq_iff_eq, beq_iff_eq] at hb
        exact hb
      have hres : webhookGet vt mode token ch = (200, ch) := by
        unfold webhookGet
        rw [if_pos hcond, if_pos hb]
      exact ⟨⟨fun _ => heq, fun _ => hres⟩, fun hn => absurd heq hn⟩
    · have heqn : ¬(mode = some "subscribe".toList ∧ token = some vt) := by
        intro hc
        exact hb (by rw [hc.1, hc.2]; simp)
      have hres : webhookGet vt mode token ch = (403, none) := by
        unfold webhookGet
        rw [if_pos hcond, if_neg hb]
      refine ⟨⟨fun habs => ?_, fun hc => absurd hc heqn⟩, fun _ => hres⟩
      rw [hres] at habs
      have h1 : (403 : Nat) = 200 := congrArg Prod.fst habs
      exact absurd h1 (by decide)
  · intro hor
    have hcond : ¬((truthyStr mode && truthyStr token) = true) := by
      rcases hor with h | h
      · rw [h]; simp
      · rw [h]; simp
    unfold webhookGet
    rw [if_neg hcond]

/-- C3 witness: the amended characterization applied to a concrete matching
verification request. -/
theorem webhook_get_characterization_witness :
    webhookGet "myverifytoken".toList (some "subscribe".toList)
        (some "myverifytoken".toList) (some "1234".toList)
      = (200, some "1234".toList) :=
  ((webhook_get_characterization "myverifytoken".toList
      (some "subscribe".toList) (some "myverifytoken".toList)
      (some "1234".toList)).1 (by decide) (by decide)).1.mpr ⟨rfl, rfl⟩

/-- C9: a conversation created without a supplied username (the pipeline
passes `null`) gets the derived username `"user_"` followed by the last six
characters of the user id. -/
theorem default_username_derivation :
    ∀ (store : List Conversation) (convId msgId : Nat) (userId text : Str)
      (sender : Sender) (now : Nat),
      store.find? (fun c => c.userId == userId) = none →
      (addMessageToConversation store convId msgId userId none text sender
          now).1.username
        = "user_".toList ++ jsSliceLast6 userId := by
  intro store convId msgId userId text sender now hfind
  simp [addMessageToConversation, hfind, jsOrUsername, defaultUsername]

/-- C9 witness: a ten-character user id yields `user_` plus its last six
characters. -/
theorem default_username_derivation_witness :
    ([] : List Conversation).find? (fun c => c.userId == "1234567890".toList)
        = none
    ∧ (addMessageToConversation [] 0 1 "1234567890".toList none "hi".toList
        Sender.user 0).1.username
        = "user_".toList ++ jsSliceLast6 "1234567890".toList
    ∧ "user_".toList ++ jsSliceLast6 "1234567890".toList
        = "user_567890".toList :=
  ⟨rfl,
   default_username_derivation [] 0 1 "1234567890".toList "hi".toList
     Sender.user 0 rfl,
   by decide⟩

/-- C5: the prompt sequence sent to the chat-completion endpoint is the fixed
system instruction, then the history (user-sender to `user` role, bot-sender
to `assistant` role) in order, then the current message as the final user
turn; and the history used — `conversation.messages.slice(0, -1)` on the
conversation returned by the append — equals the message list from before the
inbound message was appended. -/
theorem llm_prompt_construction :
    ∀ (prompt : Str) (store : List Conversation) (convId msgId : Nat)
      (userId text : Str) (now : Nat),
      (addMessageToConversation store convId msgId userId none text
          Sender.user now).1.messages.dropLast
        = priorMessages store userId
      ∧ buildMessages prompt text
          ((addMessageToConversation store convId msgId userId none text
            Sender.user now).1.messages.dropLast)
        = ⟨Role.system, prompt⟩ ::
            ((priorMessages store userId).map fun m =>
                (⟨if m.sender == Sender.user then Role.user else Role.assistant,
                  m.text⟩ : ChatMessage))
            ++ [⟨Role.user, text⟩] := by
  intro prompt store convId msgId userId text now
  cases hfind : store.find? (fun c => c.userId == userId) with
  | none =>
    constructor
    · simp [addMessageToConversation, hfind, priorMessages]
    · simp [addMessageToConversation, hfind, priorMessages, buildMessages]
  | some c =>
    constructor
    · simp [addMessageToConversation, hfind, priorMessages]
    · simp [addMessageToConversation, hfind, priorMessages, buildMessages]

theorem updateFirst_find? (p : Conversation → Bool)
    (f : Conversation → Conversation) :
    ∀ (l : List Conversation) (c : Conversation),
      l.find? p = some c → p (f c) = true →
      (updateFirst p f l).find? p = some (f c) := by
  intro l
  induction l with
  | nil => intro c h _; simp at h
  | cons d l' ih =>
    intro c h hpf
    by_cases hd : p d = true
    · rw [List.find?_cons_of_pos _ hd] at h
      obtain rfl : d = c := by injection h
      simp only [updateFirst, if_pos hd]
      exact List.find?_cons_of_pos _ hpf
    · have hd' : p d = false := Bool.eq_false_iff.mpr hd
      rw [List.find?_cons_of_neg _ hd] at h
      simp only [updateFirst, hd', Bool.false_eq_true, if_false]
      rw [List.find?_cons_of_neg _ hd]
      exact ih c h hpf

theorem updateFirst_map_userId (p : Conversation → Bool)
    (f : Conversation → Conversation)
    (hf : ∀ x, p x = true → (f x).userId = x.userId) :
    ∀ (l : List Conversation),
      (updateFirst p f l).map Conversation.userId
        = l.map Conversation.userId := by
  intro l
  induction l with
  | nil => rfl
  | cons d l' ih =>
    by_cases hd : p d = true
    · simp [updateFirst, hd, hf d hd]
    · have hd' : p d = false := Bool.eq_false_iff.mpr hd
      simp [updateFirst, hd', ih]

/-- C4: `addMessageToConversation` finds or creates the conversation of the
given user id, appends exactly one message carrying the given sender and the
current time, sets `lastActivity` to that message's timestamp, and returns
the same conversation object that the store now holds for that user id; and
it preserves the invariant that no two stored conversations share a user id. -/
theorem append_message_spec :
    ∀ (store : List Conversation) (convId msgId : Nat) (userId : Str)
      (username : Option Str) (text : Str) (sender : Sender) (now : Nat),
      (addMessageToConversation store convId msgId userId username text sender
          now).1.userId = userId
      ∧ (addMessageToConversation store convId msgId userId username text
          sender now).1.messages
          = priorMessages store userId ++ [⟨msgId, text, sender, now⟩]
      ∧ (addMessageToConversation store convId msgId userId username text
          sender now).1.lastActivity = now
      ∧ (addMessageToConversation store convId msgId userId username text
          sender now).2.find? (fun c => c.userId == userId)
          = some (addMessageToConversation store convId msgId userId username
              text sender now).1
      ∧ (store.Pairwise (fun c d => c.userId ≠ d.userId) →
          (addMessageToConversation store convId msgId userId username text
            sender now).2.Pairwise (fun c d => c.userId ≠ d.userId)) := by
  intro store convId msgId userId username text sender now
  cases hfind : store.find? (fun c => c.userId == userId) with
  | none =>
    refine ⟨by simp [addMessageToConversation, hfind], ?_,
      by simp [addMessageToConversation, hfind], ?_, ?_⟩
    · simp [addMessageToConversation, hfind, priorMessages]
    · simp only [addMessageToConversation, hfind]
      rw [List.find?_append, hfind]
      simp [List.find?_cons]
    · intro hp
      simp only [addMessageToConversation, hfind]
      rw [List.pairwise_append]
      refine ⟨hp, by simp, ?_⟩
      intro a ha b hb
      have hb' : b.userId = userId := by
        simp at hb
        rw [hb]
      have := List.find?_eq_none.mp hfind a ha
      simp only [beq_iff_eq] at this
      rw [hb']
      exact this
  | some c =>
    have hc : c.userId = userId := by
      have := List.find?_some hfind
      simpa [beq_iff_eq] using this
    refine ⟨by simp [addMessageToConversation, hfind, hc], ?_,
      by simp [addMessageToConversation, hfind], ?_, ?_⟩
    · simp [addMessageToConversation, hfind, priorMessages]
    · simp only [addMessageToConversation, hfind]
      exact updateFirst_find? _ _ store c hfind (by simp [beq_iff_eq, hc])
    · intro hp
      simp only [addMessageToConversation, hfind]
      have hmap := updateFirst_map_userId
        (fun d => d.userId == userId)
        (fun _ => { c with
          messages := c.messages ++ [⟨msgId, text, sender, now⟩]
          lastActivity := now })
        (fun x hx => by
          have : x.userId = userId := by simpa [beq_iff_eq] using hx
          simp [this, hc]) store
      have h1 : (store.map Conversation.userId).Pairwise (· ≠ ·) :=
        List.pairwise_map.mpr hp
      have h2 := hmap ▸ h1
      exact List.pairwise_map.mp h2

/-- C4 witness: appending to an empty store creates the conversation,
appends one message with the given sender and time, sets `lastActivity`, and
keeps user ids unique. -/
theorem append_message_spec_witness :
    (addMessageToConversation [] 0 1 exampleUserId none "Hi".toList
        Sender.user 5).1.userId = exampleUserId
    ∧ (addMessageToConversation [] 0 1 exampleUserId none "Hi".toList
        Sender.user 5).1.messages
        = [⟨1, "Hi".toList, Sender.user, 5⟩]
    ∧ (addMessageToConversation [] 0 1 exampleUserId none "Hi".toList
        Sender.user 5).1.lastActivity = 5
    ∧ (addMessageToConversation [] 0 1 exampleUserId none "Hi".toList
        Sender.user 5).2.find? (fun c => c.userId == exampleUserId)
        = some (addMessageToConversation [] 0 1 exampleUserId none "Hi".toList
            Sender.user 5).1
    ∧ (addMessageToConversation [] 0 1 exampleUserId none "Hi".toList
        Sender.user 5).2.Pairwise (fun c d => c.userId ≠ d.userId) :=
  ⟨(append_message_spec [] 0 1 exampleUserId none "Hi".toList Sender.user 5).1,
   (append_message_spec [] 0 1 exampleUserId none "Hi".toList Sender.user 5).2.1,
   (append_message_spec [] 0 1 exampleUserId none "Hi".toList Sender.user 5).2.2.1,
   (append_message_spec [] 0 1 exampleUserId none "Hi".toList Sender.user 5).2.2.2.1,
   (append_message_spec [] 0 1 exampleUserId none "Hi".toList Sender.user
      5).2.2.2.2 List.Pairwise.nil⟩

/-- C8: `listConversations` returns all conversations (a permutation of the
store) ordered by `lastActivity` descending: at any two positions `i < j` of
the result, the conversation at `j` has `lastActivity` no greater than the one
at `i` — so a conversation with strictly greater `lastActivity` always appears
earlier. -/
theorem list_conversations_sorted :
    ∀ (store : List Conversation),
      (listConversations store).Perm store
      ∧ ∀ (i j : Fin (listConversations store).length), i < j →
          ((listConversations store).get j).lastActivity
            ≤ ((listConversations store).get i).lastActivity := by
  intro store
  have htrans : ∀ (a b c : Conversation),
      byActivityDesc a b = true → byActivityDesc b c = true →
      byActivityDesc a c = true := by
    intro a b c hab hbc
    simp only [byActivityDesc, decide_eq_true_eq] at *
    omega
  have htotal : ∀ (a b : Conversation),
      (byActivityDesc a b || byActivityDesc b a) = true := by
    intro a b
    simp only [byActivityDesc, Bool.or_eq_true, decide_eq_true_eq]
    omega
  constructor
  · exact List.mergeSort_perm store byActivityDesc
  · intro i j hij
    have hs : (List.mergeSort store byActivityDesc).Pairwise
        (fun a b => byActivityDesc a b = true) :=
      List.sorted_mergeSort htrans htotal store
    have := List.pairwise_iff_get.mp hs i j hij
    simpa [byActivityDesc, decide_eq_true_eq] using this

/-- C8 witness: with stored conversations of `lastActivity` 1 and 2, the
listing is a permutation of the store and position 1 has `lastActivity` no
greater than position 0. -/
theorem list_conversations_sorted_witness :
    (listConversations [convA, convB]).Perm [convA, convB]
    ∧ ((listConversations [convA, convB]).get
          ⟨1, by simp [listConversations]⟩).lastActivity
        ≤ ((listConversations [convA, convB]).get
          ⟨0, by simp [listConversations]⟩).lastActivity :=
  ⟨(list_conversations_sorted [convA, convB]).1,
   (list_conversations_sorted [convA, convB]).2
     ⟨0, by simp [listConversations]⟩ ⟨1, by simp [listConversations]⟩
     (by decide)⟩

end AgentChat
